import Mathlib

/-!
Verification of the MMA8491Q accelerometer driver
(drivers/iio/accel/mma8491.c) against its natural-language specification.

The driver is embedded shallowly: each C function becomes a Lean function
over an explicit bus oracle, and every externally visible side effect
(GPIO writes, mutex operations, bus transactions, sleeps, log lines,
buffer pushes, trigger acknowledgements) is recorded in an event trace,
so that temporal claims about ordering become statements about traces.
Machine integers are modelled as Int/Nat with explicit two's-complement
arithmetic where it matters.
-/

namespace Mma8491

/-! ### Constants from the C source -/

/-- Register address of the status register (MMA8491_STATUS). -/
def MMA8491_STATUS : Nat := 0x00

/-- Register address of the X-axis MSB (MMA8491_OUT_X); the burst read
starts here. -/
def MMA8491_OUT_X : Nat := 0x01

/-- MMA8491_STATUS_DRDY = BIT(2) | BIT(1) | BIT(0) = 7: all three axis
data-ready bits. -/
def MMA8491_STATUS_DRDY : Nat := 7

/-- Linux errno EIO = 5; the driver returns -EIO on poll timeout. -/
def EIO_errno : Int := 5

/-- Linux errno EBUSY = 16; returned when the buffer is enabled. -/
def EBUSY_errno : Int := 16

/-- Linux errno EINVAL = 22; returned for an unhandled info mask. -/
def EINVAL_errno : Int := 22

/-- IIO_CHAN_INFO_RAW = 0 in enum iio_chan_info_enum (linux 3.18). -/
def IIO_CHAN_INFO_RAW : Nat := 0

/-- IIO_CHAN_INFO_SCALE = 2 in enum iio_chan_info_enum (linux 3.18). -/
def IIO_CHAN_INFO_SCALE : Nat := 2

/-- IIO_CHAN_INFO_CALIBBIAS = 5 in enum iio_chan_info_enum (linux 3.18). -/
def IIO_CHAN_INFO_CALIBBIAS : Nat := 5

/-- IIO_CHAN_INFO_SAMP_FREQ = 11 in enum iio_chan_info_enum (linux 3.18). -/
def IIO_CHAN_INFO_SAMP_FREQ : Nat := 11

/-- Return code IIO_VAL_INT = 1, used by read_raw on success. -/
def IIO_VAL_INT : Int := 1

/-- Return code IRQ_HANDLED = 1, returned by the trigger handler. -/
def IRQ_HANDLED : Int := 1

/-! ### Bus oracle and event traces -/

/-- The environment the driver interacts with: the result of the k-th
status-register read of an acquisition (a byte 0..255, or a negative
errno for a bus error), the return value of the single block-read
transaction (byte count, or negative errno), and the bytes it deposits
in the caller's buffer. -/
structure Bus where
  status : Nat → Int
  blockRet : Int
  blockBytes : Nat → Nat

/-- Externally visible side effects of the driver, in program order. -/
inductive Event where
  | gpioSet (v : Nat)
  | lock
  | unlock
  | readStatus
  | sleep (ms : Nat)
  | logDataNotReady
  | blockRead (reg len : Nat)
  | pushToBuffersWithTimestamp
  | triggerNotifyDone
deriving DecidableEq, Repr

/-! ### The driver functions -/

/-- Body of mma8491_drdy: while (tries-- > 0) read the status register;
a negative return propagates immediately; all DRDY bits set returns 0;
otherwise msleep(20) and retry.  After the loop, dev_err and -EIO.
The second argument counts completed attempts so the oracle can be
indexed. -/
def mma8491_drdyAux (bus : Bus) : Nat → Nat → Int × List Event
  | 0, _ => (-EIO_errno, [Event.logDataNotReady])
  | tries + 1, k =>
    let ret := bus.status k
    if ret < 0 then (ret, [Event.readStatus])
    else if ret.toNat &&& MMA8491_STATUS_DRDY = MMA8491_STATUS_DRDY then
      (0, [Event.readStatus])
    else
      let rest := mma8491_drdyAux bus tries (k + 1)
      (rest.1, Event.readStatus :: Event.sleep 20 :: rest.2)

/-- mma8491_drdy: poll up to 150 times. -/
def mma8491_drdy (bus : Bus) : Int × List Event :=
  mma8491_drdyAux bus 150 0

/-- mma8491_read: poll for ready, then a single
i2c_smbus_read_i2c_block_data of 3 * sizeof(__be16) = 6 bytes starting
at MMA8491_OUT_X; a failed poll returns its error with no block read. -/
def mma8491_read (bus : Bus) : Int × List Event :=
  let d := mma8491_drdy bus
  if d.1 < 0 then d
  else (bus.blockRet, d.2 ++ [Event.blockRead MMA8491_OUT_X 6])

/-- be16_to_cpu(buffer[i]) for the burst buffer: the i-th big-endian
16-bit word assembled from the bytes the block read deposited (the bus
delivers bytes, hence the reduction mod 256). -/
def blockWord (bus : Bus) (i : Nat) : Nat :=
  (bus.blockBytes (2 * i) % 256) * 256 + bus.blockBytes (2 * i + 1) % 256

/-- Linux sign_extend32(value, index): shift = 31 - index, then
((s32)(value << shift)) >> shift: the low index+1 bits reinterpreted as
a two's-complement signed value with sign bit at position index. -/
def sign_extend32 (value : Nat) (index : Nat) : Int :=
  let v := value % 2 ^ (index + 1)
  if v < 2 ^ index then (v : Int) else (v : Int) - 2 ^ (index + 1)

/-- The per-word decode expression of mma8491_read_raw:
sign_extend32(be16_to_cpu(word) >> 2, 13), applied to the already
assembled big-endian word value. -/
def mma8491_decode_word (w : Nat) : Int :=
  sign_extend32 (w >>> 2) 13

/-- Channel descriptor: the fields of struct iio_chan_spec that the
MMA8491_CHANNEL macro sets (scan_type flattened). -/
structure iio_chan_spec where
  is_timestamp : Bool
  modified : Bool
  channel2 : Nat
  info_mask_separate : Nat
  info_mask_shared_by_type : Nat
  scan_index : Nat
  sign_signed : Bool
  realbits : Nat
  storagebits : Nat
  shift : Nat
  big_endian : Bool
deriving DecidableEq, Repr

/-- MMA8491_CHANNEL(axis, idx): IIO_ACCEL, modified, channel2 = axis,
info_mask_separate = BIT(IIO_CHAN_INFO_RAW) | BIT(IIO_CHAN_INFO_CALIBBIAS),
info_mask_shared_by_type = BIT(IIO_CHAN_INFO_SAMP_FREQ) | BIT(IIO_CHAN_INFO_SCALE),
scan_type = signed, 12 real bits in 16 storage bits, shift 4, big-endian. -/
def MMA8491_CHANNEL (axis idx : Nat) : iio_chan_spec :=
  { is_timestamp := false
    modified := true
    channel2 := axis
    info_mask_separate := 2 ^ IIO_CHAN_INFO_RAW + 2 ^ IIO_CHAN_INFO_CALIBBIAS
    info_mask_shared_by_type := 2 ^ IIO_CHAN_INFO_SAMP_FREQ + 2 ^ IIO_CHAN_INFO_SCALE
    scan_index := idx
    sign_signed := true
    realbits := 12
    storagebits := 16
    shift := 4
    big_endian := true }

/-- IIO_MOD_X = 1, IIO_MOD_Y = 2, IIO_MOD_Z = 3 (enum iio_modifier). -/
def IIO_MOD_X : Nat := 1

/-- IIO_MOD_Y modifier value. -/
def IIO_MOD_Y : Nat := 2

/-- IIO_MOD_Z modifier value. -/
def IIO_MOD_Z : Nat := 3

/-- IIO_CHAN_SOFT_TIMESTAMP(3): the virtual timestamp channel. -/
def mma8491_soft_timestamp : iio_chan_spec :=
  { is_timestamp := true
    modified := false
    channel2 := 0
    info_mask_separate := 0
    info_mask_shared_by_type := 0
    scan_index := 3
    sign_signed := true
    realbits := 64
    storagebits := 64
    shift := 0
    big_endian := false }

/-- mma8491_channels: X, Y, Z axis channels plus the soft timestamp. -/
def mma8491_channels : List iio_chan_spec :=
  [MMA8491_CHANNEL IIO_MOD_X 0, MMA8491_CHANNEL IIO_MOD_Y 1,
   MMA8491_CHANNEL IIO_MOD_Z 2, mma8491_soft_timestamp]

/-- struct iio_info mma8491_info: it provides .read_raw and nothing
else; in particular there is no .write_raw callback. -/
structure iio_info_model where
  has_read_raw : Bool
  has_write_raw : Bool
deriving DecidableEq, Repr

/-- The driver's iio_info: read_raw only. -/
def mma8491_info : iio_info_model :=
  { has_read_raw := true, has_write_raw := false }

/-- mma8491_read_raw: only the IIO_CHAN_INFO_RAW case is handled.
There, a read with the buffer enabled returns -EBUSY before any side
effect; otherwise gpio high, lock, mma8491_read, unlock, gpio low, and
on success *val = sign_extend32(be16_to_cpu(buffer[scan_index]) >> 2, 13)
with return IIO_VAL_INT.  Any other mask returns -EINVAL.  The result
is (return value, *val if written, trace). -/
def mma8491_read_raw (bus : Bus) (buffer_enabled : Bool)
    (chan : iio_chan_spec) (mask : Nat) : Int × Option Int × List Event :=
  if mask = IIO_CHAN_INFO_RAW then
    if buffer_enabled then (-EBUSY_errno, none, [])
    else
      let r := mma8491_read bus
      let t := Event.gpioSet 1 :: Event.lock :: r.2
        ++ [Event.unlock, Event.gpioSet 0]
      if r.1 < 0 then (r.1, none, t)
      else (IIO_VAL_INT, some (mma8491_decode_word (blockWord bus chan.scan_index)), t)
  else (-EINVAL_errno, none, [])

/-- mma8491_trigger_handler: mma8491_read; on failure skip the push;
otherwise iio_push_to_buffers_with_timestamp; in either case
iio_trigger_notify_done, and return IRQ_HANDLED. -/
def mma8491_trigger_handler (bus : Bus) : Int × List Event :=
  let r := mma8491_read bus
  if r.1 < 0 then (IRQ_HANDLED, r.2 ++ [Event.triggerNotifyDone])
  else (IRQ_HANDLED,
    r.2 ++ [Event.pushToBuffersWithTimestamp, Event.triggerNotifyDone])

/-! ### Specification-side decoder (for the refinement claim C3) -/

/-- Modelled from the spec's words (Sample Decoder contract): interpret
the 16-bit word as a 14-bit field left-shifted by 2 within the 16 bits,
arithmetically shift right by 2 (recovering the field), and interpret
the field as two's complement at its stated 14-bit width. -/
def decode_per_spec (w : Nat) : Int :=
  let f : Nat := (w % 2 ^ 16) / 2 ^ 2
  if f < 2 ^ 13 then (f : Int) else (f : Int) - 2 ^ 14

/-! ### Concrete environments used as witnesses -/

/-- An environment whose status register reads 0x07 from the start and
whose block read succeeds with six bytes. -/
def busReadyNow : Bus :=
  { status := fun _ => 7, blockRet := 6, blockBytes := fun _ => 0 }

/-- An environment whose status register becomes ready at the third
attempt (index 2). -/
def busReadyAt2 : Bus :=
  { status := fun j => if j = 2 then 7 else 0, blockRet := 6,
    blockBytes := fun _ => 0 }

/-- An environment whose second status read fails with -EREMOTEIO
(-121); the first read returns a not-ready byte. -/
def busErrAt1 : Bus :=
  { status := fun j => if j = 1 then -121 else 0, blockRet := 6,
    blockBytes := fun _ => 0 }

/-- The X-axis channel descriptor, as placed in mma8491_channels. -/
def chanX : iio_chan_spec := MMA8491_CHANNEL IIO_MOD_X 0

/-! ### Trace vocabulary -/

/-- The trace of n unsuccessful poll iterations: a status read followed
by a 20 ms sleep, n times. -/
def pollTrace (n : Nat) : List Event :=
  List.flatten (List.replicate n [Event.readStatus, Event.sleep 20])

/-! ### Helper lemmas about the poller -/

theorem pollTrace_succ (n : Nat) :
    pollTrace (n + 1) = Event.readStatus :: Event.sleep 20 :: pollTrace n := by
  simp [pollTrace, List.replicate_succ]

theorem pollTrace_count_read (n : Nat) :
    (pollTrace n).count Event.readStatus = n := by
  induction n with
  | zero => simp [pollTrace]
  | succ n ih => rw [pollTrace_succ]; simp [List.count_cons, ih]

theorem pollTrace_count_log (n : Nat) :
    (pollTrace n).count Event.logDataNotReady = 0 := by
  induction n with
  | zero => simp [pollTrace]
  | succ n ih => rw [pollTrace_succ]; simp [List.count_cons, ih]

theorem drdyAux_success (bus : Bus) (i : Nat) :
    ∀ tries k : Nat, i < tries →
    (∀ j, j < i → 0 ≤ bus.status (k + j) ∧
      (bus.status (k + j)).toNat &&& MMA8491_STATUS_DRDY ≠ MMA8491_STATUS_DRDY) →
    0 ≤ bus.status (k + i) →
    (bus.status (k + i)).toNat &&& MMA8491_STATUS_DRDY = MMA8491_STATUS_DRDY →
    mma8491_drdyAux bus tries k = (0, pollTrace i ++ [Event.readStatus]) := by
  induction i with
  | zero =>
    intro tries k hi hprev hnn hrdy
    obtain ⟨t, rfl⟩ : ∃ t, tries = t + 1 := ⟨tries - 1, by omega⟩
    simp only [Nat.add_zero] at hnn hrdy
    simp only [mma8491_drdyAux]
    rw [if_neg (not_lt.mpr hnn), if_pos hrdy]
    simp [pollTrace]
  | succ i ih =>
    intro tries k hi hprev hnn hrdy
    obtain ⟨t, rfl⟩ : ∃ t, tries = t + 1 := ⟨tries - 1, by omega⟩
    have h0 := hprev 0 (Nat.succ_pos i)
    simp only [Nat.add_zero] at h0
    simp only [mma8491_drdyAux]
    rw [if_neg (not_lt.mpr h0.1), if_neg h0.2]
    rw [ih t (k + 1) (by omega)
      (fun j hj => by
        have h := hprev (j + 1) (by omega)
        rwa [show k + (j + 1) = k + 1 + j by omega] at h)
      (by rwa [show k + 1 + i = k + (i + 1) by omega])
      (by rwa [show k + 1 + i = k + (i + 1) by omega])]
    rw [pollTrace_succ]
    simp

theorem drdyAux_bus_error (bus : Bus) (i : Nat) :
    ∀ tries k : Nat, i < tries →
    (∀ j, j < i → 0 ≤ bus.status (k + j) ∧
      (bus.status (k + j)).toNat &&& MMA8491_STATUS_DRDY ≠ MMA8491_STATUS_DRDY) →
    bus.status (k + i) < 0 →
    mma8491_drdyAux bus tries k
      = (bus.status (k + i), pollTrace i ++ [Event.readStatus]) := by
  induction i with
  | zero =>
    intro tries k hi hprev herr
    obtain ⟨t, rfl⟩ : ∃ t, tries = t + 1 := ⟨tries - 1, by omega⟩
    simp only [Nat.add_zero] at herr ⊢
    simp only [mma8491_drdyAux]
    rw [if_pos herr]
    simp [pollTrace]
  | succ i ih =>
    intro tries k hi hprev herr
    obtain ⟨t, rfl⟩ : ∃ t, tries = t + 1 := ⟨tries - 1, by omega⟩
    have h0 := hprev 0 (Nat.succ_pos i)
    simp only [Nat.add_zero] at h0
    simp only [mma8491_drdyAux]
    rw [if_neg (not_lt.mpr h0.1), if_neg h0.2]
    rw [ih t (k + 1) (by omega)
      (fun j hj => by
        have h := hprev (j + 1) (by omega)
        rwa [show k + (j + 1) = k + 1 + j by omega] at h)
      (by rwa [show k + 1 + i = k + (i + 1) by omega])]
    rw [show k + 1 + i = k + (i + 1) by omega, pollTrace_succ]
    simp

theorem drdyAux_timeout (bus : Bus) :
    ∀ tries k : Nat,
    (∀ j, j < tries → 0 ≤ bus.status (k + j) ∧
      (bus.status (k + j)).toNat &&& MMA8491_STATUS_DRDY ≠ MMA8491_STATUS_DRDY) →
    mma8491_drdyAux bus tries k
      = (-EIO_errno, pollTrace tries ++ [Event.logDataNotReady]) := by
  intro tries
  induction tries with
  | zero => intro k _; simp [mma8491_drdyAux, pollTrace]
  | succ t ih =>
    intro k h
    have h0 := h 0 (Nat.succ_pos t)
    simp only [Nat.add_zero] at h0
    simp only [mma8491_drdyAux]
    rw [if_neg (not_lt.mpr h0.1), if_neg h0.2]
    rw [ih (k + 1) (fun j hj => by
      have hh := h (j + 1) (by omega)
      rwa [show k + (j + 1) = k + 1 + j by omega] at hh)]
    rw [pollTrace_succ]
    simp

theorem mem_drdyAux_trace (bus : Bus) :
    ∀ (tries k : Nat) (e : Event), e ∈ (mma8491_drdyAux bus tries k).2 →
      e = Event.readStatus ∨ e = Event.sleep 20 ∨ e = Event.logDataNotReady := by
  intro tries
  induction tries with
  | zero =>
    intro k e he
    simp only [mma8491_drdyAux, List.mem_singleton] at he
    simp [he]
  | succ t ih =>
    intro k e he
    simp only [mma8491_drdyAux] at he
    split at he
    · simp only [List.mem_singleton] at he; simp [he]
    · split at he
      · simp only [List.mem_singleton] at he; simp [he]
      · simp only [List.mem_cons] at he
        rcases he with rfl | rfl | he
        · left; rfl
        · right; left; rfl
        · exact ih (k + 1) e he

theorem readStatus_mem_drdyAux (bus : Bus) (t k : Nat) :
    Event.readStatus ∈ (mma8491_drdyAux bus (t + 1) k).2 := by
  simp only [mma8491_drdyAux]
  split
  · simp
  · split <;> simp

/-! ### Helper lemmas about mma8491_read -/

theorem mem_read_trace (bus : Bus) (e : Event)
    (he : e ∈ (mma8491_read bus).2) :
    e = Event.readStatus ∨ e = Event.sleep 20 ∨ e = Event.logDataNotReady ∨
      e = Event.blockRead MMA8491_OUT_X 6 := by
  simp only [mma8491_read, mma8491_drdy] at he
  split at he
  · rcases mem_drdyAux_trace bus 150 0 e he with h | h | h <;> simp [h]
  · simp only [List.mem_append, List.mem_singleton] at he
    rcases he with he | rfl
    · rcases mem_drdyAux_trace bus 150 0 e he with h | h | h <;> simp [h]
    · simp

theorem readStatus_mem_read_trace (bus : Bus) :
    Event.readStatus ∈ (mma8491_read bus).2 := by
  have h : Event.readStatus ∈ (mma8491_drdy bus).2 :=
    readStatus_mem_drdyAux bus 149 0
  simp only [mma8491_read]
  split
  · exact h
  · exact List.mem_append_left _ h

theorem blockRead_not_mem_drdy_trace (bus : Bus) (a n : Nat) :
    Event.blockRead a n ∉ (mma8491_drdy bus).2 := by
  intro h
  rcases mem_drdyAux_trace bus 150 0 _ h with h | h | h <;> simp at h

/-! ### Claim theorems -/

/-- C2: for a status sequence with no bus errors, if the three
data-ready bits (mask 0x07) are all set at attempt i < 150 and at no
earlier attempt, the poller succeeds right there: its trace is i failed
read-sleep iterations followed by the final status read, so exactly
i + 1 status reads with consecutive reads separated by a 20 ms sleep
and nothing after the successful read; if the bits are never all set
within 150 attempts, the poller performs exactly 150 status reads
(read-sleep iterations), logs the data-not-ready condition once, and
fails with -EIO (the DeviceTimeout error). -/
theorem drdy_poll_protocol (bus : Bus)
    (hbyte : ∀ j, j < 150 → 0 ≤ bus.status j) :
    (∀ i, i < 150 →
      (∀ j, j < i →
        (bus.status j).toNat &&& MMA8491_STATUS_DRDY ≠ MMA8491_STATUS_DRDY) →
      (bus.status i).toNat &&& MMA8491_STATUS_DRDY = MMA8491_STATUS_DRDY →
      mma8491_drdy bus = (0, pollTrace i ++ [Event.readStatus]) ∧
        (mma8491_drdy bus).2.count Event.readStatus = i + 1) ∧
    ((∀ i, i < 150 →
        (bus.status i).toNat &&& MMA8491_STATUS_DRDY ≠ MMA8491_STATUS_DRDY) →
      mma8491_drdy bus
          = (-EIO_errno, pollTrace 150 ++ [Event.logDataNotReady]) ∧
        (mma8491_drdy bus).2.count Event.readStatus = 150 ∧
        (mma8491_drdy bus).2.count Event.logDataNotReady = 1) := by
  constructor
  · intro i hi hprev hrdy
    have h : mma8491_drdy bus = (0, pollTrace i ++ [Event.readStatus]) := by
      have := drdyAux_success bus i 150 0 hi
        (fun j hj => by
          simpa using ⟨hbyte j (by omega), hprev j hj⟩)
        (by simpa using hbyte i hi) (by simpa using hrdy)
      simpa [mma8491_drdy] using this
    refine ⟨h, ?_⟩
    rw [h]
    simp [List.count_append, pollTrace_count_read]
  · intro hnever
    have h : mma8491_drdy bus
        = (-EIO_errno, pollTrace 150 ++ [Event.logDataNotReady]) := by
      have := drdyAux_timeout bus 150 0
        (fun j hj => by simpa using ⟨hbyte j hj, hnever j hj⟩)
      simpa [mma8491_drdy] using this
    refine ⟨h, ?_, ?_⟩
    · rw [h]
      simp [List.count_append, pollTrace_count_read, List.count_cons]
    · rw [h]
      simp [List.count_append, pollTrace_count_log, List.count_cons]

/-- Witness for C2: with the status register ready at the third attempt
the poller succeeds after exactly three status reads. -/
theorem drdy_poll_protocol_witness :
    mma8491_drdy busReadyAt2 = (0, pollTrace 2 ++ [Event.readStatus]) ∧
      (mma8491_drdy busReadyAt2).2.count Event.readStatus = 2 + 1 :=
  (drdy_poll_protocol busReadyAt2 (by decide)).1 2 (by decide)
    (by decide) (by decide)

/-- C8: a bus error at status-poll attempt i (all earlier attempts
having returned not-ready bytes) makes the poller return that error
unchanged; the trace ends at that read, so the remaining retries are
skipped and no further sleep, status read, or log is performed. -/
theorem drdy_bus_error_short_circuit (bus : Bus) (i : Nat) (hi : i < 150)
    (herr : bus.status i < 0)
    (hprev : ∀ j, j < i → 0 ≤ bus.status j ∧
      (bus.status j).toNat &&& MMA8491_STATUS_DRDY ≠ MMA8491_STATUS_DRDY) :
    mma8491_drdy bus = (bus.status i, pollTrace i ++ [Event.readStatus]) := by
  have := drdyAux_bus_error bus i 150 0 hi
    (fun j hj => by simpa using hprev j hj) (by simpa using herr)
  simpa [mma8491_drdy] using this

/-- Witness for C8: a -121 bus error at the second attempt is returned
unchanged after exactly two status reads. -/
theorem drdy_bus_error_short_circuit_witness :
    mma8491_drdy busErrAt1 = (-121, pollTrace 1 ++ [Event.readStatus]) := by
  have h := drdy_bus_error_short_circuit busErrAt1 1 (by decide) (by decide)
    (by decide)
  rw [h]
  decide

/-- C3: on every 16-bit word the driver's decode expression
sign_extend32(w >> 2, 13) agrees with the spec's description (drop the
2 non-data low bits by an arithmetic right shift and interpret the
remaining 14-bit field as two's complement at its stated width), and it
is literally sign-extension at bit position 13 of w >> 2. -/
theorem decode_word_refines_spec (w : Nat) (hw : w < 2 ^ 16) :
    mma8491_decode_word w = decode_per_spec w ∧
    mma8491_decode_word w = sign_extend32 (w >>> 2) 13 := by
  refine ⟨?_, rfl⟩
  have hw' : w < 65536 := by norm_num at hw; exact hw
  have h1 : w / 2 ^ 2 < 2 ^ (13 + 1) := by norm_num; omega
  unfold mma8491_decode_word decode_per_spec sign_extend32
  rw [Nat.shiftRight_eq_div_pow, Nat.mod_eq_of_lt hw, Nat.mod_eq_of_lt h1]

/-- Witness for C3: the equivalence instantiated at the concrete word
0x9876. -/
theorem decode_word_refines_spec_witness :
    mma8491_decode_word 0x9876 = decode_per_spec 0x9876 ∧
    mma8491_decode_word 0x9876 = sign_extend32 (0x9876 >>> 2) 13 :=
  decode_word_refines_spec 0x9876 (by decide)

/-- C4 counterexample: decoding the raw big-endian word 0x3FFC yields
+4095, a positive value, hence not -8192 (the minimum representable
value of the 14-bit field) nor the minimum of any signed range. -/
theorem decode_0x3FFC_not_minimum :
    mma8491_decode_word 0x3FFC = 4095 ∧
    mma8491_decode_word 0x3FFC ≠ -(2 ^ 13) ∧
    0 < mma8491_decode_word 0x3FFC := by decide

/-- C4 (amended): decoding 0x3FFC yields +4095 (the minimum
representable value -8192 of the 14-bit field arises from raw 0x8000
instead), and decoding 0x0004 yields +1. -/
theorem decode_fixed_inputs :
    mma8491_decode_word 0x3FFC = 4095 ∧
    mma8491_decode_word 0x0004 = 1 ∧
    mma8491_decode_word 0x8000 = -(2 ^ 13) := by decide

/-- C5: an on-demand raw read attempted while the buffer is enabled
returns -EBUSY immediately with an empty trace: no bus transaction, no
GPIO enable operation, and no lock operation. -/
theorem read_raw_busy_no_side_effects (bus : Bus) (chan : iio_chan_spec) :
    mma8491_read_raw bus true chan IIO_CHAN_INFO_RAW
      = (-EBUSY_errno, none, []) := rfl

/-- C6: every trigger invocation ends by acknowledging the trigger
source (the last trace event is the completion notification) and
returns IRQ_HANDLED, and a timestamped sample is pushed to the stream
if and only if the acquisition (poll plus burst read) succeeded. -/
theorem trigger_handler_publishes_iff_success (bus : Bus) :
    (mma8491_trigger_handler bus).2.getLast? = some Event.triggerNotifyDone ∧
    (Event.pushToBuffersWithTimestamp ∈ (mma8491_trigger_handler bus).2 ↔
      0 ≤ (mma8491_read bus).1) ∧
    (mma8491_trigger_handler bus).1 = IRQ_HANDLED := by
  have hpush : Event.pushToBuffersWithTimestamp ∉ (mma8491_read bus).2 := by
    intro h
    rcases mem_read_trace bus _ h with h | h | h | h <;> simp at h
  refine ⟨?_, ?_, ?_⟩
  · simp only [mma8491_trigger_handler]
    split <;> simp [List.getLast?_append_cons]
  · simp only [mma8491_trigger_handler]
    split
    · next hlt =>
      have hns : ¬ 0 ≤ (mma8491_read bus).1 := by omega
      simp [hns, hpush]
    · next hge =>
      have hs : 0 ≤ (mma8491_read bus).1 := by omega
      simp [hs]
  · simp only [mma8491_trigger_handler]
    split <;> rfl

/-- Witness for C6: evaluated on a concrete ready environment, the
trigger trace ends with the completion notification and does contain
the sample push. -/
theorem trigger_handler_publishes_iff_success_witness :
    (mma8491_trigger_handler busReadyNow).2.getLast?
        = some Event.triggerNotifyDone ∧
      Event.pushToBuffersWithTimestamp ∈ (mma8491_trigger_handler busReadyNow).2 :=
  ⟨(trigger_handler_publishes_iff_success busReadyNow).1,
    ((trigger_handler_publishes_iff_success busReadyNow).2.1).mpr (by decide)⟩

/-- C9: when the poller succeeds, mma8491_read issues exactly one block
read of 6 bytes starting at register 0x01, after the poll trace, and
returns the block transaction's result unchanged (in particular a bus
error from the block read propagates unchanged); when the poller fails,
its error is returned and no block read is issued. -/
theorem read_single_burst_after_ready (bus : Bus) :
    (0 ≤ (mma8491_drdy bus).1 →
      mma8491_read bus
          = (bus.blockRet,
             (mma8491_drdy bus).2 ++ [Event.blockRead MMA8491_OUT_X 6]) ∧
        (mma8491_read bus).2.count (Event.blockRead MMA8491_OUT_X 6) = 1) ∧
    ((mma8491_drdy bus).1 < 0 →
      mma8491_read bus = mma8491_drdy bus ∧
        ∀ a n, Event.blockRead a n ∉ (mma8491_read bus).2) := by
  constructor
  · intro h
    have hne : ¬ (mma8491_drdy bus).1 < 0 := not_lt.mpr h
    have heq : mma8491_read bus
        = (bus.blockRet,
           (mma8491_drdy bus).2 ++ [Event.blockRead MMA8491_OUT_X 6]) := by
      simp only [mma8491_read]
      rw [if_neg hne]
    refine ⟨heq, ?_⟩
    rw [heq]
    simp [List.count_append,
      List.count_eq_zero.mpr (blockRead_not_mem_drdy_trace bus _ _)]
  · intro h
    have heq : mma8491_read bus = mma8491_drdy bus := by
      simp only [mma8491_read]
      rw [if_pos h]
    exact ⟨heq, fun a n hm =>
      blockRead_not_mem_drdy_trace bus a n (heq ▸ hm)⟩

/-- Witness for C9: in an immediately ready environment the read is one
status read followed by the single 6-byte block read at 0x01. -/
theorem read_single_burst_after_ready_witness :
    mma8491_read busReadyNow
      = (6, [Event.readStatus, Event.blockRead MMA8491_OUT_X 6]) := by
  have h := (read_single_burst_after_ready busReadyNow).1 (by decide)
  rw [h.1]
  decide

/-- C7 counterexample: on a concrete successful on-demand read the
trace puts the GPIO enable assertion strictly before the lock
acquisition and the GPIO deassertion strictly after the unlock, so the
lock is neither acquired before the enable line is asserted nor
released after it is deasserted, contrary to the claim. -/
theorem read_raw_power_outside_lock_cex :
    (mma8491_read_raw busReadyNow false chanX IIO_CHAN_INFO_RAW).2.2
      = [Event.gpioSet 1, Event.lock, Event.readStatus,
         Event.blockRead MMA8491_OUT_X 6, Event.unlock, Event.gpioSet 0] ∧
    ¬ List.indexOf Event.lock
        (mma8491_read_raw busReadyNow false chanX IIO_CHAN_INFO_RAW).2.2 <
      List.indexOf (Event.gpioSet 1)
        (mma8491_read_raw busReadyNow false chanX IIO_CHAN_INFO_RAW).2.2 ∧
    ¬ List.indexOf (Event.gpioSet 0)
        (mma8491_read_raw busReadyNow false chanX IIO_CHAN_INFO_RAW).2.2 <
      List.indexOf Event.unlock
        (mma8491_read_raw busReadyNow false chanX IIO_CHAN_INFO_RAW).2.2 := by
  decide

/-- C7 (amended): in the on-demand path the enable line is asserted
before the lock is acquired and deasserted after the lock is released,
on the success path and on every failure path; the lock is held across
the whole poll-and-burst-read sequence, which itself performs no GPIO
or lock operation, so the lock window sits strictly inside the
power-on-to-power-off window rather than containing it. -/
theorem read_raw_lock_inside_power_window (bus : Bus) (chan : iio_chan_spec) :
    (mma8491_read_raw bus false chan IIO_CHAN_INFO_RAW).2.2
      = Event.gpioSet 1 :: Event.lock ::
        ((mma8491_read bus).2 ++ [Event.unlock, Event.gpioSet 0]) ∧
    (∀ v, Event.gpioSet v ∉ (mma8491_read bus).2) ∧
    Event.lock ∉ (mma8491_read bus).2 ∧
    Event.unlock ∉ (mma8491_read bus).2 := by
  refine ⟨?_, ?_, ?_, ?_⟩
  · by_cases hr : (mma8491_read bus).1 < 0 <;>
      simp [mma8491_read_raw, hr]
  · intro v h
    rcases mem_read_trace bus _ h with h | h | h | h <;> simp at h
  · intro h
    rcases mem_read_trace bus _ h with h | h | h | h <;> simp at h
  · intro h
    rcases mem_read_trace bus _ h with h | h | h | h <;> simp at h

/-- Witness for C7 (amended): the on-demand trace shape evaluated on a
concrete ready environment and the X channel. -/
theorem read_raw_lock_inside_power_window_witness :
    (mma8491_read_raw busReadyNow false chanX IIO_CHAN_INFO_RAW).2.2
      = Event.gpioSet 1 :: Event.lock ::
        ((mma8491_read busReadyNow).2 ++ [Event.unlock, Event.gpioSet 0]) :=
  (read_raw_lock_inside_power_window busReadyNow chanX).1

/-- C1 (code bug): the trigger handler performs the status polling and
the burst read with no GPIO enable-line operation and no lock operation
anywhere in its trace (the enable line, driven high and low only by the
on-demand path, stays deasserted), even though its trace always
contains at least one status read; the claimed
power-on/poll/read/power-off sequence of the triggered pipeline does
not happen. -/
theorem trigger_handler_unpowered_unlocked (bus : Bus) :
    (∀ v, Event.gpioSet v ∉ (mma8491_trigger_handler bus).2) ∧
    Event.lock ∉ (mma8491_trigger_handler bus).2 ∧
    Event.unlock ∉ (mma8491_trigger_handler bus).2 ∧
    Event.readStatus ∈ (mma8491_trigger_handler bus).2 := by
  have hmem : ∀ e, e ∈ (mma8491_trigger_handler bus).2 →
      e = Event.readStatus ∨ e = Event.sleep 20 ∨
      e = Event.logDataNotReady ∨ e = Event.blockRead MMA8491_OUT_X 6 ∨
      e = Event.pushToBuffersWithTimestamp ∨
      e = Event.triggerNotifyDone := by
    intro e he
    simp only [mma8491_trigger_handler] at he
    split at he
    · simp only [List.mem_append, List.mem_singleton] at he
      rcases he with he | rfl
      · rcases mem_read_trace bus e he with h | h | h | h <;> simp [h]
      · simp
    · simp only [List.mem_append, List.mem_cons,
        List.not_mem_nil, or_false] at he
      rcases he with he | rfl | rfl
      · rcases mem_read_trace bus e he with h | h | h | h <;> simp [h]
      · simp
      · simp
  refine ⟨?_, ?_, ?_, ?_⟩
  · intro v h
    rcases hmem _ h with h | h | h | h | h | h <;> simp at h
  · intro h
    rcases hmem _ h with h | h | h | h | h | h <;> simp at h
  · intro h
    rcases hmem _ h with h | h | h | h | h | h <;> simp at h
  · simp only [mma8491_trigger_handler]
    split
    · exact List.mem_append_left _ (readStatus_mem_read_trace bus)
    · exact List.mem_append_left _ (readStatus_mem_read_trace bus)

/-- Witness for C1: on a concrete trigger event the trace contains a
status read but no GPIO enable operation and no lock operation. -/
theorem trigger_handler_unpowered_unlocked_witness :
    Event.readStatus ∈ (mma8491_trigger_handler busReadyNow).2 ∧
      Event.gpioSet 1 ∉ (mma8491_trigger_handler busReadyNow).2 ∧
      Event.lock ∉ (mma8491_trigger_handler busReadyNow).2 :=
  ⟨(trigger_handler_unpowered_unlocked busReadyNow).2.2.2,
    (trigger_handler_unpowered_unlocked busReadyNow).1 1,
    (trigger_handler_unpowered_unlocked busReadyNow).2.1⟩

/-- C10 (code bug): the axis channels advertise a calibration-bias
attribute (the CALIBBIAS bit is set in info_mask_separate) yet read_raw
handles only the RAW case, so querying the bias returns -EINVAL with an
empty trace; the driver installs no write_raw callback, so the bias is
not settable; and the reported raw value is exactly the shifted
sign-extended word, with no bias term applied anywhere. -/
theorem calibbias_advertised_but_unimplemented (bus : Bus)
    (buffer_enabled : Bool) (chan : iio_chan_spec) :
    mma8491_read_raw bus buffer_enabled chan IIO_CHAN_INFO_CALIBBIAS
      = (-EINVAL_errno, none, []) ∧
    (∀ c ∈ mma8491_channels, c.is_timestamp = false →
      c.info_mask_separate.testBit IIO_CHAN_INFO_CALIBBIAS = true) ∧
    mma8491_info.has_write_raw = false ∧
    (0 ≤ (mma8491_read bus).1 →
      (mma8491_read_raw bus false chan IIO_CHAN_INFO_RAW).2.1
        = some (mma8491_decode_word (blockWord bus chan.scan_index))) := by
  refine ⟨rfl, by decide, rfl, ?_⟩
  intro hro
  have hne : ¬ (mma8491_read bus).1 < 0 := not_lt.mpr hro
  simp [mma8491_read_raw, hne]

/-- Witness for C10: the calibration-bias query evaluated on a concrete
ready environment and the X channel returns -EINVAL. -/
theorem calibbias_advertised_but_unimplemented_witness :
    mma8491_read_raw busReadyNow false chanX IIO_CHAN_INFO_CALIBBIAS
      = (-EINVAL_errno, none, []) :=
  (calibbias_advertised_but_unimplemented busReadyNow false chanX).1

end Mma8491
